import Mathlib

/-!
Verification of the box-pleating crease-pattern library (repository
Googolplexic/box-pleating).  The repository's `src/` carries only the
example driver `examples/basic_usage.py`; the core `box_pleating` module
(pattern model, validator, FOLD converter) is declared and called there
but its code is not present.  Following the specification, the core is
modelled here definition by definition, and the claims are settled
against this model.
-/

namespace BoxPleating

/-- Modelled from the spec: `Point` is a pair of integers `(x, y)` on a grid
of side `N` (spec section 3); the class itself is missing from `src/`. -/
structure Point where
  x : Int
  y : Int
deriving DecidableEq

/-- Modelled from the spec: `CreaseType` is one of MOUNTAIN, VALLEY, BORDER,
UNASSIGNED (spec section 3); the enum itself is missing from `src/`. -/
inductive CreaseType where
  | MOUNTAIN
  | VALLEY
  | BORDER
  | UNASSIGNED
deriving DecidableEq

/-- Modelled from the spec: a `Crease` is an unordered pair of distinct
Points plus a CreaseType (spec section 3); the class itself is missing
from `src/`. -/
structure Crease where
  p1 : Point
  p2 : Point
  type : CreaseType
deriving DecidableEq

/-- Whether crease `c` spans the same unordered endpoint pair `{q1, q2}`. -/
def Crease.sameSpan (c : Crease) (q1 q2 : Point) : Bool :=
  (decide (c.p1 = q1) && decide (c.p2 = q2)) ||
  (decide (c.p1 = q2) && decide (c.p2 = q1))

/-- Modelled from the spec: the pattern owns a set of creases and an integer
grid size `N` (spec section 3); the class `BoxPleatingPattern` is missing
from `src/` (only constructed in `examples/basic_usage.py`). -/
structure BoxPleatingPattern where
  grid_size : Int
  creases : List Crease
deriving DecidableEq

/-- Modelled from the spec: error kinds of section 7; the exception classes
are missing from `src/`. -/
inductive PatternError where
  | GeometryError
  | DuplicateCreaseError
  | FormatError
deriving DecidableEq

instance {ε α : Type} [DecidableEq ε] [DecidableEq α] : DecidableEq (Except ε α) :=
  fun a b =>
  match a, b with
  | .error e, .error f =>
    if h : e = f then .isTrue (by simp [h]) else .isFalse (by simp [h])
  | .ok x, .ok y =>
    if h : x = y then .isTrue (by simp [h]) else .isFalse (by simp [h])
  | .error _, .ok _ => .isFalse (by simp)
  | .ok _, .error _ => .isFalse (by simp)

/-- Modelled from the spec: `0 ≤ x ≤ N`, `0 ≤ y ≤ N` (spec section 3). -/
def inBounds (n : Int) (p : Point) : Bool :=
  decide (0 ≤ p.x) && decide (p.x ≤ n) && decide (0 ≤ p.y) && decide (p.y ≤ n)

/-- Modelled from the spec: box-pleating legality of a segment, i.e.
`dx == 0` or `dy == 0` or `|dx| == |dy|`, and not zero-length
(spec section 3). -/
def legalDirection (p1 p2 : Point) : Bool :=
  let dx := p2.x - p1.x
  let dy := p2.y - p1.y
  (decide (dx ≠ 0) || decide (dy ≠ 0)) &&
  (decide (dx = 0) || decide (dy = 0) || decide (dx.natAbs = dy.natAbs))

/-- Modelled from the spec: `add_crease(p1, p2, type)` — validates
box-pleating legality and grid bounds (`GeometryError` on failure), applies
the duplicate policy (no-op on identical re-add, `DuplicateCreaseError` on a
conflicting type), otherwise inserts the crease (spec section 4.1); the
method itself is missing from `src/` (only called in
`examples/basic_usage.py`). -/
def add_crease (pat : BoxPleatingPattern) (p1 p2 : Point) (t : CreaseType) :
    Except PatternError BoxPleatingPattern :=
  if legalDirection p1 p2 && inBounds pat.grid_size p1 && inBounds pat.grid_size p2 then
    match pat.creases.find? (fun c => c.sameSpan p1 p2) with
    | some c => if c.type = t then .ok pat else .error .DuplicateCreaseError
    | none => .ok { pat with creases := pat.creases ++ [⟨p1, p2, t⟩] }
  else
    .error .GeometryError

/-- All crease endpoints of a pattern, in crease order. -/
def endpoints (pat : BoxPleatingPattern) : List Point :=
  pat.creases.foldr (fun c acc => c.p1 :: c.p2 :: acc) []

/-- Modelled from the spec: `vertices` — the derived set of all Points that
are crease endpoints (spec section 4.1); the property itself is missing from
`src/` (only read in `examples/basic_usage.py`). -/
def BoxPleatingPattern.vertices (pat : BoxPleatingPattern) : List Point :=
  (endpoints pat).dedup

/-- Creases incident to a point (spec section 4.1: incident creases are
obtained by a lookup keyed on the point). -/
def incident (pat : BoxPleatingPattern) (v : Point) : List Crease :=
  pat.creases.filter (fun c => decide (c.p1 = v) || decide (c.p2 = v))

/-- The far endpoint of a crease as seen from vertex `v`. -/
def otherEnd (v : Point) (c : Crease) : Point :=
  if c.p1 = v then c.p2 else c.p1

/-- Direction index 0..7 of a displacement, at 45-degree increments
counter-clockwise from east; box-pleating legality makes the sign pair
determine the direction (spec section 4.1). -/
def dirIndex (dx dy : Int) : Nat :=
  if 0 < dx ∧ dy = 0 then 0
  else if 0 < dx ∧ 0 < dy then 1
  else if dx = 0 ∧ 0 < dy then 2
  else if dx < 0 ∧ 0 < dy then 3
  else if dx < 0 ∧ dy = 0 then 4
  else if dx < 0 ∧ dy < 0 then 5
  else if dx = 0 ∧ dy < 0 then 6
  else 7

/-- Direction index of a crease from one of its endpoints. -/
def creaseDir (v : Point) (c : Crease) : Nat :=
  dirIndex ((otherEnd v c).x - v.x) ((otherEnd v c).y - v.y)

/-- Insert into a sorted list of direction indices. -/
def insertSorted (a : Nat) : List Nat → List Nat
  | [] => [a]
  | b :: bs => if a ≤ b then a :: b :: bs else b :: insertSorted a bs

/-- Sort direction indices increasingly (spec section 4.1: creases at a
vertex are ordered by angle). -/
def sortDirs (l : List Nat) : List Nat :=
  l.foldr insertSorted []

/-- Adjacent duplicate in a sorted list: an angle tie between two creases at
the same vertex (spec section 4.1). -/
def hasAdjDup : List Nat → Bool
  | a :: b :: rest => decide (a = b) || hasAdjDup (b :: rest)
  | _ => false

/-- Consecutive angular gaps, in degrees, between sorted direction indices
around the full 360 degrees (spec section 4.2). -/
def gaps : List Nat → List Int
  | [] => []
  | d :: ds => List.zipWith (fun a b => (45 : Int) * ((a : Int) - (b : Int)))
      (ds ++ [d + 8]) (d :: ds)

/-- Alternating sum `θ₁ − θ₂ + θ₃ − …` (spec section 4.2). -/
def altSum : List Int → Int
  | [] => 0
  | a :: rest => a - altSum rest

/-- Violation kinds recorded by the validator (spec section 4.2). -/
inductive ViolationKind where
  | maekawa
  | kawasaki
  | odd_degree
deriving DecidableEq

/-- Modelled from the spec: a structured violation entry carrying the vertex
coordinates, the violation kind and the measured values that failed the
check (spec section 4.2); the record shape is missing from `src/` (only the
`vertex` field is read in `examples/basic_usage.py`). -/
structure Violation where
  vertex : Point
  kind : ViolationKind
  values : List Int
deriving DecidableEq

/-- Modelled from the spec: the diagnostic report maps
`foldability_violations` to the ordered violation list and carries an
`incomplete_vertices` list (spec section 4.2); the record shape is missing
from `src/`. -/
structure Report where
  foldability_violations : List Violation
  incomplete_vertices : List Point
deriving DecidableEq

/-- Mountain count at a vertex. -/
def mountains (pat : BoxPleatingPattern) (v : Point) : Nat :=
  (incident pat v).countP (fun c => decide (c.type = CreaseType.MOUNTAIN))

/-- Valley count at a vertex. -/
def valleys (pat : BoxPleatingPattern) (v : Point) : Nat :=
  (incident pat v).countP (fun c => decide (c.type = CreaseType.VALLEY))

/-- A vertex is boundary when some incident crease is typed BORDER
(spec section 4.2). -/
def isBoundary (pat : BoxPleatingPattern) (v : Point) : Bool :=
  (incident pat v).any (fun c => decide (c.type = CreaseType.BORDER))

/-- Some incident crease is still UNASSIGNED (spec section 4.2 step 1). -/
def hasUnassigned (pat : BoxPleatingPattern) (v : Point) : Bool :=
  (incident pat v).any (fun c => decide (c.type = CreaseType.UNASSIGNED))

/-- Sorted direction indices of the creases at a vertex. -/
def dirsAt (pat : BoxPleatingPattern) (v : Point) : List Nat :=
  sortDirs ((incident pat v).map (creaseDir v))

/-- Modelled from the spec: the per-vertex check of `is_valid_pattern`
(spec section 4.2): vertices of degree below 2 and boundary vertices are
skipped; a vertex with an UNASSIGNED incident crease is flagged incomplete
and skipped from the arithmetic; an angle tie raises `GeometryError`;
otherwise the Maekawa condition `|M − V| == 2` and the Kawasaki alternating
angular-gap condition (with odd degree itself a violation) are checked. -/
def checkVertex (pat : BoxPleatingPattern) (v : Point) :
    Except PatternError (List Violation × List Point) :=
  if (incident pat v).length < 2 ∨ isBoundary pat v = true then .ok ([], [])
  else if hasUnassigned pat v = true then .ok ([], [v])
  else if hasAdjDup (dirsAt pat v) = true then .error .GeometryError
  else .ok (
    (if ((mountains pat v : Int) - (valleys pat v : Int)).natAbs ≠ 2 then
        [⟨v, ViolationKind.maekawa,
          [(mountains pat v : Int), (valleys pat v : Int)]⟩]
      else []) ++
    (if (incident pat v).length % 2 = 1 then
        [⟨v, ViolationKind.odd_degree, [((incident pat v).length : Int)]⟩]
      else if altSum (gaps (dirsAt pat v)) ≠ 0 then
        [⟨v, ViolationKind.kawasaki, [altSum (gaps (dirsAt pat v))]⟩]
      else []), [])

/-- Run `checkVertex` over a list of vertices, concatenating the violation
entries and the incomplete-vertex flags in order. -/
def collectChecks (pat : BoxPleatingPattern) :
    List Point → Except PatternError (List Violation × List Point)
  | [] => .ok ([], [])
  | v :: vs =>
    match checkVertex pat v, collectChecks pat vs with
    | .ok (a, i), .ok (as, bs) => .ok (a ++ as, i ++ bs)
    | .error e, _ => .error e
    | .ok _, .error e => .error e

/-- Modelled from the spec: `is_valid_pattern() → (bool, report)` — checks
every vertex, collects the violation entries and incomplete vertices, and
is valid exactly when both lists are empty (spec section 4.2); the method
itself is missing from `src/` (only called in `examples/basic_usage.py`). -/
def is_valid_pattern (pat : BoxPleatingPattern) :
    Except PatternError (Bool × Report) :=
  match collectChecks pat pat.vertices with
  | .ok (viols, incs) => .ok (viols.isEmpty && incs.isEmpty, ⟨viols, incs⟩)
  | .error e => .error e

/-- Modelled from the spec: the parsed interchange (FOLD) file, with the
required fields `vertices_coords`, `edges_vertices`, `edges_assignment`
optional at the parsing level so that a missing required field can be
detected, plus the explicit grid-size field the format may carry
(spec section 6 and 4.3); the converter module is missing from `src/`. -/
structure FoldFile where
  vertices_coords : Option (List Point)
  edges_vertices : Option (List (Nat × Nat))
  edges_assignment : Option (List CreaseType)
  grid_size : Option Int
deriving DecidableEq

/-- Index of a point in a vertex list (position of its first occurrence). -/
def idxOf (v : Point) : List Point → Nat
  | [] => 0
  | w :: ws => if w = v then 0 else idxOf v ws + 1

/-- Modelled from the spec: `FoldConverter.save_fold` — serializes the
pattern: `vertices_coords` is the derived vertex list, each crease becomes a
vertex-id pair in `edges_vertices` with its type in `edges_assignment`, and
the explicit grid-size field records `N` (spec sections 4.3 and 6); the
method itself is missing from `src/` (only called in
`examples/basic_usage.py`). -/
def save_fold (pat : BoxPleatingPattern) : FoldFile :=
  let vs := pat.vertices
  { vertices_coords := some vs
    edges_vertices :=
      some (pat.creases.map (fun c => (idxOf c.p1 vs, idxOf c.p2 vs)))
    edges_assignment := some (pat.creases.map (fun c => c.type))
    grid_size := some pat.grid_size }

/-- Grid size of a loaded file: the explicit size field when present, else
the maximum coordinate appearing in `vertices_coords` (spec section 4.3). -/
def loadSize (f : FoldFile) (vs : List Point) : Int :=
  match f.grid_size with
  | some n => n
  | none => vs.foldr (fun p acc => max p.x (max p.y acc)) 0

/-- Creases reconstructed from edge vertex-id pairs and assignments. -/
def loadCreases (vs : List Point) (evs : List (Nat × Nat))
    (eas : List CreaseType) : List Crease :=
  (evs.zip eas).map
    (fun e => (⟨vs.getD e.1.1 ⟨0, 0⟩, vs.getD e.1.2 ⟨0, 0⟩, e.2⟩ : Crease))

/-- Modelled from the spec: `FoldConverter.load_fold` — raises `FormatError`
on a missing required field, a length mismatch between `edges_vertices` and
`edges_assignment`, or a vertex id that is not a valid index into
`vertices_coords`; re-validates every crease through the same legality check
as `add_crease`, raising `GeometryError` otherwise; takes the grid size from
the explicit size field when present, else the maximum coordinate
(spec sections 4.3 and 6); the method itself is missing from `src/` (only
called in `examples/basic_usage.py`). -/
def load_fold (f : FoldFile) : Except PatternError BoxPleatingPattern :=
  match f.vertices_coords, f.edges_vertices, f.edges_assignment with
  | some vs, some evs, some eas =>
    if evs.length ≠ eas.length then .error .FormatError
    else if ∀ e ∈ evs, e.1 < vs.length ∧ e.2 < vs.length then
      if ∀ c ∈ loadCreases vs evs eas, legalDirection c.p1 c.p2 = true ∧
          inBounds (loadSize f vs) c.p1 = true ∧
          inBounds (loadSize f vs) c.p2 = true then
        .ok ⟨loadSize f vs, loadCreases vs evs eas⟩
      else .error .GeometryError
    else .error .FormatError
  | _, _, _ => .error .FormatError

/-- Patterns built solely through `add_crease` from an empty pattern
(spec section 3 lifecycle). -/
inductive Built : BoxPleatingPattern → Prop
  | empty (n : Int) : Built ⟨n, []⟩
  | step {p q : BoxPleatingPattern} {p1 p2 : Point} {t : CreaseType} :
      Built p → add_crease p p1 p2 t = .ok q → Built q

/-- Reachable patterns: created empty, extended only by `add_crease`, or
produced by `load_fold` (spec sections 3 and 4.3). -/
inductive Reachable : BoxPleatingPattern → Prop
  | empty (n : Int) : Reachable ⟨n, []⟩
  | step {p q : BoxPleatingPattern} {p1 p2 : Point} {t : CreaseType} :
      Reachable p → add_crease p p1 p2 t = .ok q → Reachable q
  | loaded {f : FoldFile} {p : BoxPleatingPattern} :
      load_fold f = .ok p → Reachable p

/-- The pattern of `create_simple_pattern` in `examples/basic_usage.py`:
grid size 8 with creases (0,0)-(4,4) MOUNTAIN, (4,4)-(8,8) VALLEY and
(4,4)-(0,8) MOUNTAIN added through `add_crease`. -/
def create_simple_pattern : BoxPleatingPattern :=
  let run : Except PatternError BoxPleatingPattern := do
    let p0 : BoxPleatingPattern := ⟨8, []⟩
    let p1 ← add_crease p0 ⟨0, 0⟩ ⟨4, 4⟩ CreaseType.MOUNTAIN
    let p2 ← add_crease p1 ⟨4, 4⟩ ⟨8, 8⟩ CreaseType.VALLEY
    add_crease p2 ⟨4, 4⟩ ⟨0, 8⟩ CreaseType.MOUNTAIN
  match run with
  | .ok p => p
  | .error _ => ⟨8, []⟩

/-- Geometric well-formedness of a pattern: every crease is box-pleating
legal and in bounds, and no two creases at a vertex share a direction
(the angle-tie case that `creases_at` treats as a geometry failure,
spec section 4.1). -/
def wellFormed (pat : BoxPleatingPattern) : Bool :=
  pat.creases.all (fun c => legalDirection c.p1 c.p2 &&
    inBounds pat.grid_size c.p1 && inBounds pat.grid_size c.p2) &&
  pat.vertices.all (fun v => !hasAdjDup (dirsAt pat v))

/-- A pattern holding a single UNASSIGNED crease on a grid of size 2. -/
def patternOneUnassigned : BoxPleatingPattern :=
  ⟨2, [⟨⟨0, 0⟩, ⟨1, 0⟩, CreaseType.UNASSIGNED⟩]⟩

/-- A pattern holding a single MOUNTAIN crease on a grid of size 2. -/
def patternOneMountain : BoxPleatingPattern :=
  ⟨2, [⟨⟨0, 0⟩, ⟨1, 1⟩, CreaseType.MOUNTAIN⟩]⟩

/-- A degree-4 flat-foldable vertex at (1,1) on a grid of size 2: three
MOUNTAIN creases and one VALLEY crease at right angles. -/
def patternFlatVertex : BoxPleatingPattern :=
  ⟨2, [⟨⟨1, 1⟩, ⟨2, 1⟩, CreaseType.MOUNTAIN⟩,
       ⟨⟨1, 1⟩, ⟨1, 2⟩, CreaseType.MOUNTAIN⟩,
       ⟨⟨1, 1⟩, ⟨0, 1⟩, CreaseType.MOUNTAIN⟩,
       ⟨⟨1, 1⟩, ⟨1, 0⟩, CreaseType.VALLEY⟩]⟩

/-- A degree-2 vertex at (1,1) with one UNASSIGNED and one MOUNTAIN
incident crease, on a grid of size 2. -/
def patternIncompleteVertex : BoxPleatingPattern :=
  ⟨2, [⟨⟨1, 1⟩, ⟨2, 1⟩, CreaseType.UNASSIGNED⟩,
       ⟨⟨1, 1⟩, ⟨0, 1⟩, CreaseType.MOUNTAIN⟩]⟩

/-- A malformed interchange file: two edges but only one assignment. -/
def malformedFoldFile : FoldFile :=
  { vertices_coords := some [⟨0, 0⟩, ⟨1, 1⟩, ⟨2, 2⟩]
    edges_vertices := some [(0, 1), (1, 2)]
    edges_assignment := some [CreaseType.MOUNTAIN]
    grid_size := some 2 }

/-! ## Basic lemmas about the model -/

theorem mem_foldr_endpoints (l : List Crease) (v : Point) :
    v ∈ l.foldr (fun c acc => c.p1 :: c.p2 :: acc) [] ↔
      ∃ c ∈ l, c.p1 = v ∨ c.p2 = v := by
  induction l with
  | nil => simp
  | cons c cs ih =>
    simp only [List.foldr_cons, List.mem_cons, ih, List.mem_cons]
    constructor
    · rintro (h | h | ⟨d, hd, hdv⟩)
      · exact ⟨c, Or.inl rfl, Or.inl h.symm⟩
      · exact ⟨c, Or.inl rfl, Or.inr h.symm⟩
      · exact ⟨d, Or.inr hd, hdv⟩
    · rintro ⟨d, (rfl | hd), hdv⟩
      · rcases hdv with h | h
        · exact Or.inl h.symm
        · exact Or.inr (Or.inl h.symm)
      · exact Or.inr (Or.inr ⟨d, hd, hdv⟩)

theorem mem_vertices {pat : BoxPleatingPattern} {v : Point} :
    v ∈ pat.vertices ↔ ∃ c ∈ pat.creases, c.p1 = v ∨ c.p2 = v := by
  unfold BoxPleatingPattern.vertices endpoints
  rw [List.mem_dedup]
  exact mem_foldr_endpoints pat.creases v

theorem endpoint_mem_vertices {pat : BoxPleatingPattern} {c : Crease}
    (hc : c ∈ pat.creases) : c.p1 ∈ pat.vertices ∧ c.p2 ∈ pat.vertices :=
  ⟨mem_vertices.mpr ⟨c, hc, Or.inl rfl⟩, mem_vertices.mpr ⟨c, hc, Or.inr rfl⟩⟩

theorem idxOf_lt_length {v : Point} {l : List Point} (h : v ∈ l) :
    idxOf v l < l.length := by
  induction l with
  | nil => cases h
  | cons w ws ih =>
    by_cases hw : w = v
    · simp [idxOf, hw]
    · rcases List.mem_cons.mp h with h' | h'
      · exact absurd h'.symm hw
      · simpa [idxOf, hw] using ih h'

theorem getD_idxOf {v : Point} {l : List Point} (d : Point) (h : v ∈ l) :
    l.getD (idxOf v l) d = v := by
  induction l with
  | nil => cases h
  | cons w ws ih =>
    by_cases hw : w = v
    · simp [idxOf, hw]
    · rcases List.mem_cons.mp h with h' | h'
      · exact absurd h'.symm hw
      · simpa [idxOf, hw, List.getD_cons_succ] using ih h'

theorem sameSpan_iff {c : Crease} {q1 q2 : Point} :
    c.sameSpan q1 q2 = true ↔
      (c.p1 = q1 ∧ c.p2 = q2) ∨ (c.p1 = q2 ∧ c.p2 = q1) := by
  simp [Crease.sameSpan]

theorem legalDirection_iff {p1 p2 : Point} :
    legalDirection p1 p2 = true ↔
      ((p2.x - p1.x ≠ 0 ∨ p2.y - p1.y ≠ 0) ∧
       (p2.x - p1.x = 0 ∨ p2.y - p1.y = 0 ∨
         (p2.x - p1.x).natAbs = (p2.y - p1.y).natAbs)) := by
  simp only [legalDirection, Bool.and_eq_true, Bool.or_eq_true, decide_eq_true_eq]
  tauto

theorem legalDirection_symm {p1 p2 : Point} :
    legalDirection p1 p2 = true ↔ legalDirection p2 p1 = true := by
  rw [legalDirection_iff, legalDirection_iff]
  have hx : p1.x - p2.x = -(p2.x - p1.x) := by ring
  have hy : p1.y - p2.y = -(p2.y - p1.y) := by ring
  rw [hx, hy, Int.natAbs_neg, Int.natAbs_neg]
  constructor
  · rintro ⟨h1, h2⟩
    exact ⟨by omega, by omega⟩
  · rintro ⟨h1, h2⟩
    exact ⟨by omega, by omega⟩

theorem inBounds_iff {n : Int} {p : Point} :
    inBounds n p = true ↔ 0 ≤ p.x ∧ p.x ≤ n ∧ 0 ≤ p.y ∧ p.y ≤ n := by
  simp [inBounds]
  tauto

theorem point_ne_iff {p1 p2 : Point} :
    p1 ≠ p2 ↔ (p2.x - p1.x ≠ 0 ∨ p2.y - p1.y ≠ 0) := by
  cases p1 with
  | mk x1 y1 =>
    cases p2 with
    | mk x2 y2 =>
      simp only [ne_eq, Point.mk.injEq, not_and]
      constructor
      · intro h
        by_cases hx : x1 = x2
        · right
          intro hy
          exact h hx (by omega)
        · left
          omega
      · intro h hx hy
        rcases h with h | h
        · exact h (by omega)
        · exact h (by omega)

/-- Case analysis of a successful `add_crease`. -/
theorem add_crease_ok_cases {pat : BoxPleatingPattern} {p1 p2 : Point}
    {t : CreaseType} {q : BoxPleatingPattern}
    (h : add_crease pat p1 p2 t = .ok q) :
    (legalDirection p1 p2 = true ∧ inBounds pat.grid_size p1 = true ∧
      inBounds pat.grid_size p2 = true) ∧
    ((q = pat ∧ ∃ c, pat.creases.find? (fun c => c.sameSpan p1 p2) = some c ∧
        c.type = t) ∨
     (q = { pat with creases := pat.creases ++ [⟨p1, p2, t⟩] } ∧
        pat.creases.find? (fun c => c.sameSpan p1 p2) = none)) := by
  unfold add_crease at h
  split at h
  · next hg =>
    simp only [Bool.and_eq_true] at hg
    refine ⟨⟨hg.1.1, hg.1.2, hg.2⟩, ?_⟩
    split at h
    · rename_i c hfind
      by_cases ht : c.type = t
      · rw [if_pos ht] at h
        injection h with h
        exact Or.inl ⟨h.symm, c, hfind, ht⟩
      · rw [if_neg ht] at h
        cases h
    · rename_i hfind
      injection h with h
      exact Or.inr ⟨h.symm, hfind⟩
  · cases h

theorem built_reachable {pat : BoxPleatingPattern} (h : Built pat) :
    Reachable pat := by
  induction h with
  | empty n => exact Reachable.empty n
  | step _ hstep ih => exact Reachable.step ih hstep

/-- Every crease of a reachable pattern is legal and in bounds. -/
theorem reachable_inv {pat : BoxPleatingPattern} (h : Reachable pat) :
    ∀ c ∈ pat.creases, legalDirection c.p1 c.p2 = true ∧
      inBounds pat.grid_size c.p1 = true ∧ inBounds pat.grid_size c.p2 = true := by
  induction h with
  | empty n => intro c hc; cases hc
  | step _ hstep ih =>
    rcases add_crease_ok_cases hstep with ⟨⟨hl, hb1, hb2⟩, hq | hq⟩
    · rw [hq.1]; exact ih
    · rw [hq.1]
      intro c hc
      rcases List.mem_append.mp hc with hc' | hc'
      · exact ih c hc'
      · rcases List.mem_singleton.mp hc' with rfl
        exact ⟨hl, hb1, hb2⟩
  | loaded hload =>
    revert hload
    unfold load_fold
    split
    · intro hload
      split at hload
      · cases hload
      · split at hload
        · split at hload
          · rename_i hleg
            injection hload with hload
            rw [← hload]
            exact hleg
          · cases hload
        · cases hload
    · intro hload; cases hload

/-! ## Duplicate-crease policy lemmas -/

theorem sameSpan_trans {a b : Crease} {q1 q2 : Point}
    (ha : a.sameSpan q1 q2 = true) (hb : b.sameSpan q1 q2 = true) :
    a.sameSpan b.p1 b.p2 = true := by
  rcases sameSpan_iff.mp ha with ⟨h1, h2⟩ | ⟨h1, h2⟩ <;>
    rcases sameSpan_iff.mp hb with ⟨h3, h4⟩ | ⟨h3, h4⟩ <;>
    apply sameSpan_iff.mpr <;> simp [h1, h2, h3, h4]

/-- A crease spans its own endpoint pair. -/
theorem sameSpan_self (c : Crease) : c.sameSpan c.p1 c.p2 = true := by
  apply sameSpan_iff.mpr
  exact Or.inl ⟨rfl, rfl⟩

/-- In a pattern built through `add_crease`, no two stored creases span the
same unordered endpoint pair. -/
theorem built_pairwise {pat : BoxPleatingPattern} (h : Built pat) :
    pat.creases.Pairwise (fun a b => a.sameSpan b.p1 b.p2 = false) := by
  induction h with
  | empty n => exact List.Pairwise.nil
  | step _ hstep ih =>
    rcases add_crease_ok_cases hstep with ⟨_, hq | hq⟩
    · rw [hq.1]; exact ih
    · rw [hq.1]
      apply List.pairwise_append.mpr
      refine ⟨ih, List.pairwise_singleton _ _, ?_⟩
      intro a ha b hb
      rcases List.mem_singleton.mp hb with rfl
      have := List.find?_eq_none.mp hq.2 a ha
      exact Bool.not_eq_true _ ▸ (Bool.eq_false_iff.mpr this)

/-- Finding a crease by its span in a span-pairwise list returns exactly the
member that spans the pair. -/
theorem find_span {l : List Crease} {c : Crease} {q1 q2 : Point}
    (hp : l.Pairwise (fun a b => a.sameSpan b.p1 b.p2 = false))
    (hc : c ∈ l) (hs : c.sameSpan q1 q2 = true) :
    l.find? (fun d => d.sameSpan q1 q2) = some c := by
  induction l with
  | nil => cases hc
  | cons d ds ih =>
    rcases List.pairwise_cons.mp hp with ⟨hd, hp'⟩
    rcases List.mem_cons.mp hc with rfl | hc'
    · exact List.find?_cons_of_pos _ hs
    · by_cases hdm : d.sameSpan q1 q2 = true
      · exfalso
        have htr := sameSpan_trans hdm hs
        rw [hd c hc'] at htr
        cases htr
      · exact (List.find?_cons_of_neg ds hdm).trans (ih hp' hc')

/-! ## Validator lemmas -/

/-- Violation entries produced by `checkVertex` carry the checked vertex, and
any incomplete flag names the checked vertex. -/
theorem checkVertex_tags {pat : BoxPleatingPattern} {v : Point}
    {a : List Violation} {i : List Point}
    (h : checkVertex pat v = .ok (a, i)) :
    (∀ e ∈ a, e.vertex = v) ∧ (∀ u ∈ i, u = v) := by
  unfold checkVertex at h
  split at h
  · injection h with h
    injection h with h1 h2
    subst h1; subst h2
    simp
  · split at h
    · injection h with h
      injection h with h1 h2
      subst h1; subst h2
      refine ⟨by simp, fun u hu => ?_⟩
      rcases List.mem_singleton.mp hu with rfl
      rfl
    · split at h
      · cases h
      · injection h with h
        injection h with h1 h2
        subst h1; subst h2
        refine ⟨fun e he => ?_, by simp⟩
        rcases List.mem_append.mp he with he' | he'
        · split at he'
          · rcases List.mem_singleton.mp he' with rfl; rfl
          · cases he'
        · split at he'
          · rcases List.mem_singleton.mp he' with rfl; rfl
          · split at he'
            · rcases List.mem_singleton.mp he' with rfl; rfl
            · cases he'

/-- Success of `collectChecks` at a member vertex. -/
theorem collect_ok_of_mem {pat : BoxPleatingPattern} {vs : List Point}
    {viols : List Violation} {incs : List Point} {v : Point}
    (hv : v ∈ vs) (h : collectChecks pat vs = .ok (viols, incs)) :
    ∃ a i, checkVertex pat v = .ok (a, i) := by
  induction vs generalizing viols incs with
  | nil => cases hv
  | cons w ws ih =>
    unfold collectChecks at h
    rcases hcw : checkVertex pat w with e | ⟨a, i⟩ <;> rw [hcw] at h
    · cases h
    · rcases hrec : collectChecks pat ws with e | ⟨as, bs⟩ <;> rw [hrec] at h
      · cases h
      · rcases List.mem_cons.mp hv with rfl | hv'
        · exact ⟨a, i, hcw⟩
        · exact ih hv' hrec

/-- Membership in the collected violation entries. -/
theorem collect_mem_viols {pat : BoxPleatingPattern} {vs : List Point}
    {viols : List Violation} {incs : List Point}
    (h : collectChecks pat vs = .ok (viols, incs)) (e : Violation) :
    e ∈ viols ↔ ∃ w ∈ vs, ∃ a i, checkVertex pat w = .ok (a, i) ∧ e ∈ a := by
  induction vs generalizing viols incs with
  | nil =>
    unfold collectChecks at h
    injection h with h
    injection h with h1 h2
    subst h1
    simp
  | cons w ws ih =>
    unfold collectChecks at h
    rcases hcw : checkVertex pat w with er | ⟨a, i⟩ <;> rw [hcw] at h
    · cases h
    · rcases hrec : collectChecks pat ws with er | ⟨as, bs⟩ <;> rw [hrec] at h
      · cases h
      · injection h with h
        injection h with h1 h2
        subst h1
        rw [List.mem_append, ih hrec]
        constructor
        · rintro (he | ⟨u, hu, a', i', hcu, he⟩)
          · exact ⟨w, List.mem_cons_self w ws, a, i, hcw, he⟩
          · exact ⟨u, List.mem_cons_of_mem w hu, a', i', hcu, he⟩
        · rintro ⟨u, hu, a', i', hcu, he⟩
          rcases List.mem_cons.mp hu with rfl | hu'
          · rw [hcw] at hcu
            injection hcu with hcu
            injection hcu with hq1 hq2
            subst hq1
            exact Or.inl he
          · exact Or.inr ⟨u, hu', a', i', hcu, he⟩

/-- Membership in the collected incomplete-vertex flags. -/
theorem collect_mem_incs {pat : BoxPleatingPattern} {vs : List Point}
    {viols : List Violation} {incs : List Point}
    (h : collectChecks pat vs = .ok (viols, incs)) (u : Point) :
    u ∈ incs ↔ ∃ w ∈ vs, ∃ a i, checkVertex pat w = .ok (a, i) ∧ u ∈ i := by
  induction vs generalizing viols incs with
  | nil =>
    unfold collectChecks at h
    injection h with h
    injection h with h1 h2
    subst h2
    simp
  | cons w ws ih =>
    unfold collectChecks at h
    rcases hcw : checkVertex pat w with er | ⟨a, i⟩ <;> rw [hcw] at h
    · cases h
    · rcases hrec : collectChecks pat ws with er | ⟨as, bs⟩ <;> rw [hrec] at h
      · cases h
      · injection h with h
        injection h with h1 h2
        subst h2
        rw [List.mem_append, ih hrec]
        constructor
        · rintro (hu | ⟨x, hx, a', i', hcx, hu⟩)
          · exact ⟨w, List.mem_cons_self w ws, a, i, hcw, hu⟩
          · exact ⟨x, List.mem_cons_of_mem w hx, a', i', hcx, hu⟩
        · rintro ⟨x, hx, a', i', hcx, hu⟩
          rcases List.mem_cons.mp hx with rfl | hx'
          · rw [hcw] at hcx
            injection hcx with hcx
            injection hcx with hq1 hq2
            subst hq2
            exact Or.inl hu
          · exact Or.inr ⟨x, hx', a', i', hcx, hu⟩

/-- Decomposition of a successful `is_valid_pattern` run. -/
theorem ivp_ok_elim {pat : BoxPleatingPattern} {b : Bool} {r : Report}
    (h : is_valid_pattern pat = .ok (b, r)) :
    collectChecks pat pat.vertices =
      .ok (r.foldability_violations, r.incomplete_vertices) ∧
    b = (r.foldability_violations.isEmpty && r.incomplete_vertices.isEmpty) := by
  unfold is_valid_pattern at h
  rcases hc : collectChecks pat pat.vertices with er | ⟨viols, incs⟩ <;> rw [hc] at h
  · cases h
  · injection h with h
    injection h with h1 h2
    subst h1
    subst h2
    exact ⟨hc ▸ rfl, rfl⟩

/-- Transfer of report membership at a single vertex. -/
theorem report_at_vertex {pat : BoxPleatingPattern} {b : Bool} {r : Report}
    {v : Point} {a : List Violation} {i : List Point}
    (h : is_valid_pattern pat = .ok (b, r)) (hv : v ∈ pat.vertices)
    (hcv : checkVertex pat v = .ok (a, i)) :
    (∀ e : Violation, e.vertex = v →
      (e ∈ r.foldability_violations ↔ e ∈ a)) ∧
    (v ∈ r.incomplete_vertices ↔ v ∈ i) := by
  rcases ivp_ok_elim h with ⟨hc, _⟩
  constructor
  · intro e hev
    rw [collect_mem_viols hc e]
    constructor
    · rintro ⟨w, hw, a', i', hcw, he⟩
      have := (checkVertex_tags hcw).1 e he
      rw [hev] at this
      subst this
      rw [hcv] at hcw
      injection hcw with hcw
      injection hcw with h1 h2
      subst h1
      exact he
    · intro he
      exact ⟨v, hv, a, i, hcv, he⟩
  · rw [collect_mem_incs hc v]
    constructor
    · rintro ⟨w, hw, a', i', hcw, hu⟩
      have := (checkVertex_tags hcw).2 v hu
      subst this
      rw [hcv] at hcw
      injection hcw with hcw
      injection hcw with h1 h2
      subst h2
      exact hu
    · intro hu
      exact ⟨v, hv, a, i, hcv, hu⟩

theorem isBoundary_eq_false {pat : BoxPleatingPattern} {v : Point}
    (h : ∀ c ∈ incident pat v, c.type ≠ CreaseType.BORDER) :
    isBoundary pat v = false := by
  rw [Bool.eq_false_iff]
  simp only [ne_eq, isBoundary, List.any_eq_true, decide_eq_true_eq]
  push_neg
  exact h

theorem hasUnassigned_eq_false {pat : BoxPleatingPattern} {v : Point}
    (h : ∀ c ∈ incident pat v, c.type ≠ CreaseType.UNASSIGNED) :
    hasUnassigned pat v = false := by
  rw [Bool.eq_false_iff]
  simp only [ne_eq, hasUnassigned, List.any_eq_true, decide_eq_true_eq]
  push_neg
  exact h

/-- Outcome of `checkVertex` at an interior vertex of degree at least 2 with
every incident crease assigned. -/
theorem checkVertex_ok_assigned {pat : BoxPleatingPattern} {v : Point}
    {a : List Violation} {i : List Point}
    (h : checkVertex pat v = .ok (a, i))
    (hdeg : 2 ≤ (incident pat v).length)
    (hb : isBoundary pat v = false)
    (hu : hasUnassigned pat v = false) :
    a = (if ((mountains pat v : Int) - (valleys pat v : Int)).natAbs ≠ 2 then
          [⟨v, ViolationKind.maekawa,
            [(mountains pat v : Int), (valleys pat v : Int)]⟩]
        else []) ++
        (if (incident pat v).length % 2 = 1 then
          [⟨v, ViolationKind.odd_degree, [((incident pat v).length : Int)]⟩]
        else if altSum (gaps (dirsAt pat v)) ≠ 0 then
          [⟨v, ViolationKind.kawasaki, [altSum (gaps (dirsAt pat v))]⟩]
        else []) ∧
    i = [] := by
  have hc1 : ¬((incident pat v).length < 2 ∨ isBoundary pat v = true) := by
    rw [hb]
    simp
    omega
  have hc2 : ¬(hasUnassigned pat v = true) := by
    rw [hu]
    simp
  unfold checkVertex at h
  rw [if_neg hc1, if_neg hc2] at h
  split at h
  · cases h
  · injection h with h
    injection h with h1 h2
    exact ⟨h1.symm, h2.symm⟩

/-- Outcome of `checkVertex` at an interior vertex of degree at least 2 with
an UNASSIGNED incident crease. -/
theorem checkVertex_ok_unassigned {pat : BoxPleatingPattern} {v : Point}
    {a : List Violation} {i : List Point}
    (h : checkVertex pat v = .ok (a, i))
    (hdeg : 2 ≤ (incident pat v).length)
    (hb : isBoundary pat v = false)
    (hu : hasUnassigned pat v = true) :
    a = [] ∧ i = [v] := by
  have hc1 : ¬((incident pat v).length < 2 ∨ isBoundary pat v = true) := by
    rw [hb]
    simp
    omega
  unfold checkVertex at h
  rw [if_neg hc1, if_pos hu] at h
  injection h with h
  injection h with h1 h2
  exact ⟨h1.symm, h2.symm⟩

/-! ## Claim theorems: validator -/

/-- C2: for every interior vertex `v` (no incident BORDER crease) of degree
at least 2 all of whose incident creases are typed MOUNTAIN or VALLEY,
`is_valid_pattern` records a violation of kind `maekawa` for `v` exactly
when `|M − V| ≠ 2`, where `M` counts the MOUNTAIN and `V` the VALLEY creases
incident to `v`. -/
theorem maekawa_violation_iff {pat : BoxPleatingPattern} {b : Bool}
    {r : Report} {v : Point}
    (hrun : is_valid_pattern pat = .ok (b, r))
    (hv : v ∈ pat.vertices)
    (hdeg : 2 ≤ (incident pat v).length)
    (hint : ∀ c ∈ incident pat v, c.type ≠ CreaseType.BORDER)
    (hmv : ∀ c ∈ incident pat v,
      c.type = CreaseType.MOUNTAIN ∨ c.type = CreaseType.VALLEY) :
    (∃ e ∈ r.foldability_violations,
      e.vertex = v ∧ e.kind = ViolationKind.maekawa) ↔
      ((mountains pat v : Int) - (valleys pat v : Int)).natAbs ≠ 2 := by
  have hb : isBoundary pat v = false := isBoundary_eq_false hint
  have hu : hasUnassigned pat v = false := by
    apply hasUnassigned_eq_false
    intro c hc
    rcases hmv c hc with h | h <;> rw [h] <;> intro h' <;> cases h'
  obtain ⟨a, i, hcv⟩ := collect_ok_of_mem hv (ivp_ok_elim hrun).1
  obtain ⟨ha, _⟩ := checkVertex_ok_assigned hcv hdeg hb hu
  obtain ⟨hmem, _⟩ := report_at_vertex hrun hv hcv
  subst ha
  constructor
  · rintro ⟨e, he, hev, hek⟩
    rw [hmem e hev] at he
    rcases List.mem_append.mp he with hm | hk
    · split at hm
      · rename_i hcond
        exact hcond
      · cases hm
    · exfalso
      split at hk
      · rcases List.mem_singleton.mp hk with rfl
        cases hek
      · split at hk
        · rcases List.mem_singleton.mp hk with rfl
          cases hek
        · cases hk
  · intro hne
    refine ⟨⟨v, ViolationKind.maekawa,
      [(mountains pat v : Int), (valleys pat v : Int)]⟩, ?_, rfl, rfl⟩
    rw [hmem _ rfl, if_pos hne]
    exact List.mem_append.mpr (Or.inl (List.mem_singleton.mpr rfl))

/-- C3 (amended): for every interior vertex of degree at least 2 with all
incident creases assigned, when the degree is even `is_valid_pattern`
reports a `kawasaki` violation for it exactly when the alternating sum of
the consecutive angular gaps of its creases sorted by angle is nonzero, and
when the degree is odd it reports an `odd_degree` violation for it. -/
theorem kawasaki_and_odd_degree_report {pat : BoxPleatingPattern} {b : Bool}
    {r : Report} {v : Point}
    (hrun : is_valid_pattern pat = .ok (b, r))
    (hv : v ∈ pat.vertices)
    (hdeg : 2 ≤ (incident pat v).length)
    (hint : ∀ c ∈ incident pat v, c.type ≠ CreaseType.BORDER)
    (hass : ∀ c ∈ incident pat v, c.type ≠ CreaseType.UNASSIGNED) :
    ((incident pat v).length % 2 = 0 →
      ((∃ e ∈ r.foldability_violations,
        e.vertex = v ∧ e.kind = ViolationKind.kawasaki) ↔
        altSum (gaps (dirsAt pat v)) ≠ 0)) ∧
    ((incident pat v).length % 2 = 1 →
      ∃ e ∈ r.foldability_violations,
        e.vertex = v ∧ e.kind = ViolationKind.odd_degree) := by
  have hb : isBoundary pat v = false := isBoundary_eq_false hint
  have hu : hasUnassigned pat v = false := hasUnassigned_eq_false hass
  obtain ⟨a, i, hcv⟩ := collect_ok_of_mem hv (ivp_ok_elim hrun).1
  obtain ⟨ha, _⟩ := checkVertex_ok_assigned hcv hdeg hb hu
  obtain ⟨hmem, _⟩ := report_at_vertex hrun hv hcv
  subst ha
  constructor
  · intro heven
    have hodd : ¬((incident pat v).length % 2 = 1) := by omega
    constructor
    · rintro ⟨e, he, hev, hek⟩
      rw [hmem e hev] at he
      rcases List.mem_append.mp he with hm | hk
      · exfalso
        split at hm
        · rcases List.mem_singleton.mp hm with rfl
          cases hek
        · cases hm
      · split at hk
        · rename_i hcond
          exact absurd hcond hodd
        · split at hk
          · rename_i hcond
            exact hcond
          · cases hk
    · intro hnz
      refine ⟨⟨v, ViolationKind.kawasaki, [altSum (gaps (dirsAt pat v))]⟩,
        ?_, rfl, rfl⟩
      rw [hmem _ rfl, if_neg hodd, if_pos hnz]
      exact List.mem_append.mpr (Or.inr (List.mem_singleton.mpr rfl))
  · intro hodd
    refine ⟨⟨v, ViolationKind.odd_degree, [((incident pat v).length : Int)]⟩,
      ?_, rfl, rfl⟩
    rw [hmem _ rfl, if_pos hodd]
    exact List.mem_append.mpr (Or.inr (List.mem_singleton.mpr rfl))

/-- C3 (counterexample to the literal claim): in the pattern with the single
MOUNTAIN crease (0,0)-(1,1), the vertex (0,0) is interior with odd degree 1
and all incident creases assigned, yet `is_valid_pattern` reports no
violation at all: the whole run returns `(true, {})`. -/
theorem odd_degree_unreported_for_degree_one :
    is_valid_pattern patternOneMountain = .ok (true, ⟨[], []⟩) ∧
    (⟨0, 0⟩ : Point) ∈ patternOneMountain.vertices ∧
    (∀ c ∈ incident patternOneMountain ⟨0, 0⟩,
      c.type ≠ CreaseType.BORDER ∧ c.type ≠ CreaseType.UNASSIGNED) ∧
    (incident patternOneMountain ⟨0, 0⟩).length % 2 = 1 := by
  decide

/-- C6 (amended): every non-boundary vertex of degree at least 2 with an
UNASSIGNED incident crease is excluded from the Maekawa/Kawasaki arithmetic
(no violation entry names it), listed under `incomplete_vertices`, and the
overall result is `false`. -/
theorem unassigned_vertex_flagged_incomplete {pat : BoxPleatingPattern}
    {b : Bool} {r : Report} {v : Point}
    (hrun : is_valid_pattern pat = .ok (b, r))
    (hv : v ∈ pat.vertices)
    (hdeg : 2 ≤ (incident pat v).length)
    (hint : ∀ c ∈ incident pat v, c.type ≠ CreaseType.BORDER)
    (hun : ∃ c ∈ incident pat v, c.type = CreaseType.UNASSIGNED) :
    v ∈ r.incomplete_vertices ∧
    (∀ e ∈ r.foldability_violations, e.vertex ≠ v) ∧
    b = false := by
  have hb : isBoundary pat v = false := isBoundary_eq_false hint
  have hu : hasUnassigned pat v = true := by
    rcases hun with ⟨c, hc, ht⟩
    simp only [hasUnassigned, List.any_eq_true, decide_eq_true_eq]
    exact ⟨c, hc, ht⟩
  obtain ⟨a, i, hcv⟩ := collect_ok_of_mem hv (ivp_ok_elim hrun).1
  obtain ⟨ha, hi⟩ := checkVertex_ok_unassigned hcv hdeg hb hu
  obtain ⟨hmem, hinc⟩ := report_at_vertex hrun hv hcv
  subst ha
  subst hi
  have hvmem : v ∈ r.incomplete_vertices := by
    rw [hinc]
    exact List.mem_singleton.mpr rfl
  refine ⟨hvmem, ?_, ?_⟩
  · intro e he hev
    rw [hmem e hev] at he
    cases he
  · rcases hlist : r.incomplete_vertices with _ | ⟨x, xs⟩
    · rw [hlist] at hvmem
      cases hvmem
    · rw [(ivp_ok_elim hrun).2, hlist]
      simp

/-- C6 (counterexample to the literal claim): in the pattern with the single
UNASSIGNED crease (0,0)-(1,0), the vertex (0,0) has an incident UNASSIGNED
crease, yet `is_valid_pattern` returns `(true, {})`: the vertex is not
listed under `incomplete_vertices` and the overall result is `true`. -/
theorem unassigned_degree_one_not_flagged :
    is_valid_pattern patternOneUnassigned = .ok (true, ⟨[], []⟩) ∧
    (⟨0, 0⟩ : Point) ∈ patternOneUnassigned.vertices ∧
    (∃ c ∈ incident patternOneUnassigned ⟨0, 0⟩,
      c.type = CreaseType.UNASSIGNED) := by
  decide

/-! ## Totality of the validator on well-formed patterns -/

theorem checkVertex_error_dup {pat : BoxPleatingPattern} {v : Point}
    {e : PatternError} (h : checkVertex pat v = .error e) :
    hasAdjDup (dirsAt pat v) = true := by
  unfold checkVertex at h
  split at h
  · cases h
  · split at h
    · cases h
    · split at h
      · rename_i hdup
        exact hdup
      · cases h

theorem collect_total {pat : BoxPleatingPattern} {vs : List Point}
    (h : ∀ v ∈ vs, hasAdjDup (dirsAt pat v) = false) :
    ∃ res, collectChecks pat vs = .ok res := by
  induction vs with
  | nil => exact ⟨([], []), rfl⟩
  | cons w ws ih =>
    obtain ⟨⟨as, bs⟩, hres⟩ := ih (fun v hv => h v (List.mem_cons_of_mem w hv))
    rcases hcw : checkVertex pat w with er | ⟨a, i⟩
    · exfalso
      have hd := checkVertex_error_dup hcw
      rw [h w (List.mem_cons_self w ws)] at hd
      cases hd
    · refine ⟨(a ++ as, i ++ bs), ?_⟩
      unfold collectChecks
      rw [hcw, hres]

/-- C8: on a geometrically well-formed pattern the validator never raises:
it returns a boolean together with a report carrying the ordered violation
list and the incomplete-vertex list, and the boolean is `true` exactly when
both lists are empty (so a valid pattern yields `(true, {})`). -/
theorem is_valid_pattern_ok_of_wellFormed {pat : BoxPleatingPattern}
    (h : wellFormed pat = true) :
    ∃ b r, is_valid_pattern pat = .ok (b, r) ∧
      (b = true ↔ r.foldability_violations = [] ∧ r.incomplete_vertices = []) := by
  have hnd : ∀ v ∈ pat.vertices, hasAdjDup (dirsAt pat v) = false := by
    simp only [wellFormed, Bool.and_eq_true] at h
    have hall := List.all_eq_true.mp h.2
    intro v hv
    have h' := hall v hv
    simpa using h'
  obtain ⟨⟨viols, incs⟩, hc⟩ := collect_total hnd
  refine ⟨viols.isEmpty && incs.isEmpty, ⟨viols, incs⟩, ?_, ?_⟩
  · unfold is_valid_pattern
    rw [hc]
  · cases viols <;> cases incs <;> simp

/-- C8 witness at the flat-foldable single-vertex pattern. -/
theorem is_valid_pattern_ok_of_wellFormed_witness :
    ∃ b r, is_valid_pattern patternFlatVertex = .ok (b, r) ∧
      (b = true ↔ r.foldability_violations = [] ∧ r.incomplete_vertices = []) :=
  is_valid_pattern_ok_of_wellFormed (by decide)

/-! ## Claim theorems: converter errors -/

/-- C7: `load_fold` raises `FormatError` whenever a required field is
missing, the `edges_vertices` and `edges_assignment` sequences differ in
length, or some edge references a vertex id that is not a valid index into
`vertices_coords`; no pattern is returned. -/
theorem load_fold_format_error (f : FoldFile)
    (h : f.vertices_coords = none ∨ f.edges_vertices = none ∨
      f.edges_assignment = none ∨
      ∃ vs evs eas, f.vertices_coords = some vs ∧ f.edges_vertices = some evs ∧
        f.edges_assignment = some eas ∧
        (evs.length ≠ eas.length ∨
          ∃ e ∈ evs, ¬(e.1 < vs.length ∧ e.2 < vs.length))) :
    load_fold f = .error .FormatError := by
  rcases f with ⟨ovs, oevs, oeas, ogs⟩
  rcases h with h | h | h | ⟨vs, evs, eas, h1, h2, h3, hbad⟩
  · cases h
    cases oevs <;> cases oeas <;> rfl
  · cases h
    cases ovs <;> rfl
  · cases h
    cases ovs <;> cases oevs <;> rfl
  · cases h1
    cases h2
    cases h3
    show load_fold ⟨some vs, some evs, some eas, ogs⟩ = .error .FormatError
    dsimp only [load_fold]
    rcases hbad with hlen | hidx
    · rw [if_pos hlen]
    · by_cases hlen : evs.length ≠ eas.length
      · rw [if_pos hlen]
      · rw [if_neg hlen]
        have hnall : ¬(∀ e ∈ evs, e.1 < vs.length ∧ e.2 < vs.length) := by
          rcases hidx with ⟨e, he, hne⟩
          intro hall
          exact hne (hall e he)
        rw [if_neg hnall]

/-- C7 witness at a file whose assignment list is shorter than its edge
list. -/
theorem load_fold_format_error_witness :
    malformedFoldFile.edges_vertices = some [(0, 1), (1, 2)] ∧
    malformedFoldFile.edges_assignment = some [CreaseType.MOUNTAIN] ∧
    load_fold malformedFoldFile = .error .FormatError :=
  ⟨rfl, rfl, load_fold_format_error malformedFoldFile
    (Or.inr (Or.inr (Or.inr
      ⟨[⟨0, 0⟩, ⟨1, 1⟩, ⟨2, 2⟩], [(0, 1), (1, 2)], [CreaseType.MOUNTAIN],
        rfl, rfl, rfl, Or.inl (by decide)⟩)))⟩

/-! ## Claim theorems: pattern mutation -/

theorem guard_iff {n : Int} {p1 p2 : Point} :
    (legalDirection p1 p2 && inBounds n p1 && inBounds n p2) = true ↔
      (p1 ≠ p2 ∧
       (p2.x - p1.x = 0 ∨ p2.y - p1.y = 0 ∨
         (p2.x - p1.x).natAbs = (p2.y - p1.y).natAbs) ∧
       inBounds n p1 = true ∧ inBounds n p2 = true) := by
  simp only [Bool.and_eq_true, legalDirection_iff, point_ne_iff]
  tauto

/-- C4 (amended): `add_crease` raises `GeometryError` exactly when the
segment violates box-pleating legality or leaves the grid; on a legal
in-bounds pair of distinct points whose span is not already occupied by a
crease of a different type it succeeds, and afterwards both endpoints are
vertices of the pattern. -/
theorem add_crease_geometry_error_iff_and_success (pat : BoxPleatingPattern)
    (p1 p2 : Point) (t : CreaseType) :
    (add_crease pat p1 p2 t = .error .GeometryError ↔
      ¬(p1 ≠ p2 ∧
        (p2.x - p1.x = 0 ∨ p2.y - p1.y = 0 ∨
          (p2.x - p1.x).natAbs = (p2.y - p1.y).natAbs) ∧
        inBounds pat.grid_size p1 = true ∧
        inBounds pat.grid_size p2 = true)) ∧
    ((p1 ≠ p2 ∧
        (p2.x - p1.x = 0 ∨ p2.y - p1.y = 0 ∨
          (p2.x - p1.x).natAbs = (p2.y - p1.y).natAbs) ∧
        inBounds pat.grid_size p1 = true ∧
        inBounds pat.grid_size p2 = true) →
      (∀ c ∈ pat.creases, c.sameSpan p1 p2 = true → c.type = t) →
      ∃ q, add_crease pat p1 p2 t = .ok q ∧
        p1 ∈ q.vertices ∧ p2 ∈ q.vertices) := by
  constructor
  · by_cases hg : (legalDirection p1 p2 && inBounds pat.grid_size p1 &&
        inBounds pat.grid_size p2) = true
    · rw [← guard_iff, hg]
      unfold add_crease
      rw [if_pos hg]
      constructor
      · intro h
        split at h
        · split at h <;> cases h
        · cases h
      · intro h
        exact absurd rfl h
    · rw [← guard_iff]
      unfold add_crease
      rw [if_neg hg]
      constructor
      · intro _
        exact fun hc => hg hc
      · intro _
        rfl
  · intro hleg hdup
    have hg : (legalDirection p1 p2 && inBounds pat.grid_size p1 &&
        inBounds pat.grid_size p2) = true := guard_iff.mpr hleg
    unfold add_crease
    rw [if_pos hg]
    rcases hfind : pat.creases.find? (fun c => c.sameSpan p1 p2) with _ | c
    · refine ⟨{ pat with creases := pat.creases ++ [⟨p1, p2, t⟩] },
        by rw [hfind], ?_, ?_⟩
      · exact mem_vertices.mpr ⟨⟨p1, p2, t⟩,
          List.mem_append.mpr (Or.inr (List.mem_singleton.mpr rfl)), Or.inl rfl⟩
      · exact mem_vertices.mpr ⟨⟨p1, p2, t⟩,
          List.mem_append.mpr (Or.inr (List.mem_singleton.mpr rfl)), Or.inr rfl⟩
    · have hmem := List.mem_of_find?_eq_some hfind
      have hspan := List.find?_some hfind
      have htype : c.type = t := hdup c hmem hspan
      refine ⟨pat, ?_, ?_, ?_⟩
      · rw [hfind]
        show (if c.type = t then (Except.ok pat : Except PatternError BoxPleatingPattern)
          else .error .DuplicateCreaseError) = .ok pat
        rw [if_pos htype]
      · rcases sameSpan_iff.mp hspan with ⟨h1, _⟩ | ⟨_, h2⟩
        · exact h1 ▸ (endpoint_mem_vertices hmem).1
        · exact h2 ▸ (endpoint_mem_vertices hmem).2
      · rcases sameSpan_iff.mp hspan with ⟨_, h2⟩ | ⟨h1, _⟩
        · exact h2 ▸ (endpoint_mem_vertices hmem).2
        · exact h1 ▸ (endpoint_mem_vertices hmem).1

/-- C4 (counterexample to the literal claim): (0,0)-(1,1) is a legal
in-bounds diagonal pair of distinct points, yet re-adding it over the
existing MOUNTAIN crease with type VALLEY does not succeed: it raises
`DuplicateCreaseError`. -/
theorem add_crease_duplicate_not_success :
    ((⟨0, 0⟩ : Point) ≠ ⟨1, 1⟩) ∧
    (((⟨1, 1⟩ : Point).x - (⟨0, 0⟩ : Point).x).natAbs =
      ((⟨1, 1⟩ : Point).y - (⟨0, 0⟩ : Point).y).natAbs) ∧
    inBounds patternOneMountain.grid_size ⟨0, 0⟩ = true ∧
    inBounds patternOneMountain.grid_size ⟨1, 1⟩ = true ∧
    add_crease patternOneMountain ⟨0, 0⟩ ⟨1, 1⟩ CreaseType.VALLEY =
      .error PatternError.DuplicateCreaseError := by
  decide

/-- C4 witness: a fresh legal diagonal crease on an empty grid of size 2. -/
theorem add_crease_success_witness :
    ∃ q, add_crease ⟨2, []⟩ ⟨0, 0⟩ ⟨1, 1⟩ CreaseType.MOUNTAIN = .ok q ∧
      (⟨0, 0⟩ : Point) ∈ q.vertices ∧ (⟨1, 1⟩ : Point) ∈ q.vertices :=
  (add_crease_geometry_error_iff_and_success ⟨2, []⟩ ⟨0, 0⟩ ⟨1, 1⟩
    CreaseType.MOUNTAIN).2 (by decide) (by decide)

/-- C5: when a crease with the same unordered endpoint pair already exists
in an API-built pattern, re-adding it with the same type is a no-op on the
crease set, and re-adding it with a different type raises
`DuplicateCreaseError` (leaving the pattern unchanged). -/
theorem add_crease_duplicate_policy {pat : BoxPleatingPattern} {c : Crease}
    {p1 p2 : Point} (hb : Built pat) (hc : c ∈ pat.creases)
    (hs : c.sameSpan p1 p2 = true) :
    add_crease pat p1 p2 c.type = .ok pat ∧
    ∀ t, t ≠ c.type →
      add_crease pat p1 p2 t = .error .DuplicateCreaseError := by
  obtain ⟨hl, hb1, hb2⟩ := reachable_inv (built_reachable hb) c hc
  have hg : (legalDirection p1 p2 && inBounds pat.grid_size p1 &&
      inBounds pat.grid_size p2) = true := by
    rcases sameSpan_iff.mp hs with ⟨h1, h2⟩ | ⟨h1, h2⟩
    · subst h1
      subst h2
      simp only [Bool.and_eq_true]
      exact ⟨⟨hl, hb1⟩, hb2⟩
    · subst h1
      subst h2
      simp only [Bool.and_eq_true]
      exact ⟨⟨legalDirection_symm.mp hl, hb2⟩, hb1⟩
  have hfind : pat.creases.find? (fun d => d.sameSpan p1 p2) = some c :=
    find_span (built_pairwise hb) hc hs
  constructor
  · unfold add_crease
    rw [if_pos hg, hfind]
    show (if c.type = c.type then (Except.ok pat : Except PatternError BoxPleatingPattern)
      else .error .DuplicateCreaseError) = .ok pat
    rw [if_pos rfl]
  · intro t ht
    have ht' : ¬(c.type = t) := fun h => ht h.symm
    unfold add_crease
    rw [if_pos hg, hfind]
    show (if c.type = t then (Except.ok pat : Except PatternError BoxPleatingPattern)
      else .error .DuplicateCreaseError) = .error .DuplicateCreaseError
    rw [if_neg ht']

/-- C5 witness: re-adding the (0,0)-(1,1) crease over itself. -/
theorem add_crease_duplicate_policy_witness :
    add_crease patternOneMountain ⟨0, 0⟩ ⟨1, 1⟩ CreaseType.MOUNTAIN =
      .ok patternOneMountain ∧
    add_crease patternOneMountain ⟨0, 0⟩ ⟨1, 1⟩ CreaseType.VALLEY =
      .error .DuplicateCreaseError := by
  have hstep : add_crease ⟨2, []⟩ ⟨0, 0⟩ ⟨1, 1⟩ CreaseType.MOUNTAIN =
      .ok patternOneMountain := by decide
  have hb : Built patternOneMountain := Built.step (Built.empty 2) hstep
  have hc : (⟨⟨0, 0⟩, ⟨1, 1⟩, CreaseType.MOUNTAIN⟩ : Crease) ∈
      patternOneMountain.creases := List.mem_singleton.mpr rfl
  have hs : (⟨⟨0, 0⟩, ⟨1, 1⟩, CreaseType.MOUNTAIN⟩ : Crease).sameSpan
      ⟨0, 0⟩ ⟨1, 1⟩ = true := by decide
  exact ⟨(add_crease_duplicate_policy hb hc hs).1,
    (add_crease_duplicate_policy hb hc hs).2 CreaseType.VALLEY (by decide)⟩

/-- C9: in every reachable pattern (created empty, extended by `add_crease`,
or produced by `load_fold`), every stored crease joins two distinct points
with `dx = 0`, `dy = 0`, or `|dx| = |dy|`, and every endpoint coordinate
lies within `[0, N]`. -/
theorem reachable_pattern_invariant {pat : BoxPleatingPattern}
    (h : Reachable pat) :
    ∀ c ∈ pat.creases, c.p1 ≠ c.p2 ∧
      (c.p2.x - c.p1.x = 0 ∨ c.p2.y - c.p1.y = 0 ∨
        (c.p2.x - c.p1.x).natAbs = (c.p2.y - c.p1.y).natAbs) ∧
      (0 ≤ c.p1.x ∧ c.p1.x ≤ pat.grid_size ∧
        0 ≤ c.p1.y ∧ c.p1.y ≤ pat.grid_size) ∧
      (0 ≤ c.p2.x ∧ c.p2.x ≤ pat.grid_size ∧
        0 ≤ c.p2.y ∧ c.p2.y ≤ pat.grid_size) := by
  intro c hc
  obtain ⟨hl, hb1, hb2⟩ := reachable_inv h c hc
  obtain ⟨hne, hdir⟩ := legalDirection_iff.mp hl
  exact ⟨point_ne_iff.mpr hne, hdir, inBounds_iff.mp hb1, inBounds_iff.mp hb2⟩

/-- C9 witness: the invariant instantiated at the single crease of the
one-crease pattern reached by a single `add_crease`. -/
theorem reachable_pattern_invariant_witness :
    (⟨⟨0, 0⟩, ⟨1, 1⟩, CreaseType.MOUNTAIN⟩ : Crease).p1 ≠
      (⟨⟨0, 0⟩, ⟨1, 1⟩, CreaseType.MOUNTAIN⟩ : Crease).p2 ∧
    ((⟨1, 1⟩ : Point).x - (⟨0, 0⟩ : Point).x = 0 ∨
      (⟨1, 1⟩ : Point).y - (⟨0, 0⟩ : Point).y = 0 ∨
      ((⟨1, 1⟩ : Point).x - (⟨0, 0⟩ : Point).x).natAbs =
        ((⟨1, 1⟩ : Point).y - (⟨0, 0⟩ : Point).y).natAbs) ∧
    (0 ≤ (⟨0, 0⟩ : Point).x ∧
      (⟨0, 0⟩ : Point).x ≤ patternOneMountain.grid_size ∧
      0 ≤ (⟨0, 0⟩ : Point).y ∧
      (⟨0, 0⟩ : Point).y ≤ patternOneMountain.grid_size) ∧
    (0 ≤ (⟨1, 1⟩ : Point).x ∧
      (⟨1, 1⟩ : Point).x ≤ patternOneMountain.grid_size ∧
      0 ≤ (⟨1, 1⟩ : Point).y ∧
      (⟨1, 1⟩ : Point).y ≤ patternOneMountain.grid_size) := by
  have hstep : add_crease ⟨2, []⟩ ⟨0, 0⟩ ⟨1, 1⟩ CreaseType.MOUNTAIN =
      .ok patternOneMountain := by decide
  exact reachable_pattern_invariant
    (Reachable.step (Reachable.empty 2) hstep)
    ⟨⟨0, 0⟩, ⟨1, 1⟩, CreaseType.MOUNTAIN⟩ (List.mem_singleton.mpr rfl)

/-! ## Round trip through the interchange format -/

theorem map_self {α : Type} (f : α → α) :
    ∀ l : List α, (∀ c ∈ l, f c = c) → l.map f = l := by
  intro l
  induction l with
  | nil => intro _; rfl
  | cons a as ih =>
    intro h
    rw [List.map_cons, h a (List.mem_cons_self a as),
      ih (fun c hc => h c (List.mem_cons_of_mem a hc))]

/-- Saving an API-built pattern and loading the file back reproduces the
pattern exactly. -/
theorem load_save {p : BoxPleatingPattern} (hb : Built p) :
    load_fold (save_fold p) = .ok p := by
  have hinv := reachable_inv (built_reachable hb)
  have hlen : ¬((p.creases.map
        (fun c => (idxOf c.p1 p.vertices, idxOf c.p2 p.vertices))).length ≠
      (p.creases.map (fun c => c.type)).length) := by
    simp
  have hidx : ∀ e ∈ p.creases.map
      (fun c => (idxOf c.p1 p.vertices, idxOf c.p2 p.vertices)),
      e.1 < p.vertices.length ∧ e.2 < p.vertices.length := by
    intro e he
    rcases List.mem_map.mp he with ⟨c, hc, rfl⟩
    exact ⟨idxOf_lt_length (endpoint_mem_vertices hc).1,
      idxOf_lt_length (endpoint_mem_vertices hc).2⟩
  have hcs : loadCreases p.vertices
      (p.creases.map (fun c => (idxOf c.p1 p.vertices, idxOf c.p2 p.vertices)))
      (p.creases.map (fun c => c.type)) = p.creases := by
    unfold loadCreases
    rw [List.zip_map', List.map_map]
    apply map_self
    intro c hc
    obtain ⟨h1, h2⟩ := endpoint_mem_vertices hc
    show (⟨p.vertices.getD (idxOf c.p1 p.vertices) ⟨0, 0⟩,
      p.vertices.getD (idxOf c.p2 p.vertices) ⟨0, 0⟩, c.type⟩ : Crease) = c
    rw [getD_idxOf _ h1, getD_idxOf _ h2]
  show load_fold (save_fold p) = .ok p
  dsimp only [load_fold, save_fold]
  rw [if_neg hlen, if_pos hidx]
  rw [hcs]
  have hsize : loadSize
      ⟨some p.vertices,
        some (p.creases.map
          (fun c => (idxOf c.p1 p.vertices, idxOf c.p2 p.vertices))),
        some (p.creases.map (fun c => c.type)), some p.grid_size⟩
      p.vertices = p.grid_size := rfl
  rw [hsize]
  rw [if_pos hinv]

/-- C1: for every pattern built solely through `add_crease`, loading the
saved file yields a pattern with the same vertex set, the same crease set
(unordered endpoint pairs with their type), and the same grid size. -/
theorem round_trip_preserves_pattern {p : BoxPleatingPattern}
    (hb : Built p) :
    ∃ q, load_fold (save_fold p) = .ok q ∧
      (∀ v, v ∈ q.vertices ↔ v ∈ p.vertices) ∧
      (∀ q1 q2 t, (∃ c ∈ q.creases, c.sameSpan q1 q2 = true ∧ c.type = t) ↔
        (∃ c ∈ p.creases, c.sameSpan q1 q2 = true ∧ c.type = t)) ∧
      q.grid_size = p.grid_size :=
  ⟨p, load_save hb, fun _ => Iff.rfl, fun _ _ _ => Iff.rfl, rfl⟩

/-- C1 witness at a two-crease pattern built by two `add_crease` calls. -/
theorem round_trip_preserves_pattern_witness :
    ∃ q, load_fold (save_fold patternIncompleteVertex) = .ok q ∧
      (∀ v, v ∈ q.vertices ↔ v ∈ patternIncompleteVertex.vertices) ∧
      (∀ q1 q2 t, (∃ c ∈ q.creases, c.sameSpan q1 q2 = true ∧ c.type = t) ↔
        (∃ c ∈ patternIncompleteVertex.creases,
          c.sameSpan q1 q2 = true ∧ c.type = t)) ∧
      q.grid_size = patternIncompleteVertex.grid_size := by
  have h1 : add_crease ⟨2, []⟩ ⟨1, 1⟩ ⟨2, 1⟩ CreaseType.UNASSIGNED =
      .ok ⟨2, [⟨⟨1, 1⟩, ⟨2, 1⟩, CreaseType.UNASSIGNED⟩]⟩ := by decide
  have h2 : add_crease ⟨2, [⟨⟨1, 1⟩, ⟨2, 1⟩, CreaseType.UNASSIGNED⟩]⟩
      ⟨1, 1⟩ ⟨0, 1⟩ CreaseType.MOUNTAIN = .ok patternIncompleteVertex := by
    decide
  exact round_trip_preserves_pattern
    (Built.step (Built.step (Built.empty 2) h1) h2)

/-! ## The example driver pattern -/

/-- C10: on the pattern of `create_simple_pattern` (grid 8, creases
(0,0)-(4,4) MOUNTAIN, (4,4)-(8,8) VALLEY, (4,4)-(0,8) MOUNTAIN) the
validator returns `false` with a non-empty report: the interior vertex
(4,4) has odd degree 3 and mountain/valley counts `M = 2`, `V = 1`, so a
`maekawa` entry (`|M − V| = 1 ≠ 2`) and an `odd_degree` entry are
recorded for it. -/
theorem create_simple_pattern_invalid :
    is_valid_pattern create_simple_pattern =
      .ok (false,
        ⟨[⟨⟨4, 4⟩, ViolationKind.maekawa, [2, 1]⟩,
          ⟨⟨4, 4⟩, ViolationKind.odd_degree, [3]⟩], []⟩) ∧
    (incident create_simple_pattern ⟨4, 4⟩).length = 3 ∧
    mountains create_simple_pattern ⟨4, 4⟩ = 2 ∧
    valleys create_simple_pattern ⟨4, 4⟩ = 1 ∧
    isBoundary create_simple_pattern ⟨4, 4⟩ = false := by
  decide

/-! ## Witnesses for the validator claims -/

/-- C2 witness at the flat-foldable vertex (1,1) with M = 3, V = 1. -/
theorem maekawa_violation_iff_witness :
    (∃ e ∈ (⟨[], []⟩ : Report).foldability_violations,
      e.vertex = (⟨1, 1⟩ : Point) ∧ e.kind = ViolationKind.maekawa) ↔
      ((mountains patternFlatVertex ⟨1, 1⟩ : Int) -
        (valleys patternFlatVertex ⟨1, 1⟩ : Int)).natAbs ≠ 2 := by
  have hrun : is_valid_pattern patternFlatVertex = .ok (true, ⟨[], []⟩) := by
    decide
  exact maekawa_violation_iff hrun (by decide) (by decide) (by decide)
    (by decide)

/-- C3 witness at the degree-4 vertex (1,1) with four 90-degree gaps. -/
theorem kawasaki_and_odd_degree_report_witness :
    ((incident patternFlatVertex ⟨1, 1⟩).length % 2 = 0 →
      ((∃ e ∈ (⟨[], []⟩ : Report).foldability_violations,
        e.vertex = (⟨1, 1⟩ : Point) ∧ e.kind = ViolationKind.kawasaki) ↔
        altSum (gaps (dirsAt patternFlatVertex ⟨1, 1⟩)) ≠ 0)) ∧
    ((incident patternFlatVertex ⟨1, 1⟩).length % 2 = 1 →
      ∃ e ∈ (⟨[], []⟩ : Report).foldability_violations,
        e.vertex = (⟨1, 1⟩ : Point) ∧ e.kind = ViolationKind.odd_degree) := by
  have hrun : is_valid_pattern patternFlatVertex = .ok (true, ⟨[], []⟩) := by
    decide
  exact kawasaki_and_odd_degree_report hrun (by decide) (by decide)
    (by decide) (by decide)

/-- C6 witness at the degree-2 vertex (1,1) with an UNASSIGNED crease. -/
theorem unassigned_vertex_flagged_incomplete_witness :
    (⟨1, 1⟩ : Point) ∈
      (⟨[], [⟨1, 1⟩]⟩ : Report).incomplete_vertices ∧
    (∀ e ∈ (⟨[], [⟨1, 1⟩]⟩ : Report).foldability_violations,
      e.vertex ≠ (⟨1, 1⟩ : Point)) ∧
    (false : Bool) = false := by
  have hrun : is_valid_pattern patternIncompleteVertex =
      .ok (false, ⟨[], [⟨1, 1⟩]⟩) := by decide
  exact unassigned_vertex_flagged_incomplete hrun (by decide) (by decide)
    (by decide) (by decide)

end BoxPleating
